import Mathlib

/-!
Verification of the ingenium.sql query gateway (server.js / _pool.js).

SQL text is modelled as `List Char`.  The named-parameter binder
(`processParameters`), the statement classifier and router
(`executeByQueryType`), the query operations, the transaction
orchestration, the prepared-query registry and the pool statistics are
translated from the source.  Scanning functions that consume more than
one character per step are written with an explicit fuel argument
(instantiated with the string length at the wrapper) so that they are
structurally recursive and evaluate inside the kernel.
-/

namespace IG

/-- JavaScript word character: the regex class of letters, digits and
underscore used by the token patterns in server.js. -/
def isWordChar (c : Char) : Bool := c.isAlphanum || c = '_'

/-- Number of positional markers (question marks) in a piece of SQL text. -/
def countQ (s : List Char) : Nat := s.count '?'

/-- Scanner for the global token match of the binder: collects every
maximal run `@` followed by one or more word characters, left to right,
non-overlapping.  `fuel` bounds the recursion; the wrapper passes the
string length. -/
def matchTokensF : Nat → List Char → List (List Char)
  | 0, _ => []
  | _ + 1, [] => []
  | fuel + 1, c :: rest =>
    if c = '@' ∧ rest.takeWhile isWordChar ≠ [] then
      ('@' :: rest.takeWhile isWordChar) :: matchTokensF fuel (rest.dropWhile isWordChar)
    else
      matchTokensF fuel rest

/-- All `@identifier` tokens of a query, in left-to-right occurrence
order, duplicates included. -/
def matchTokens (s : List Char) : List (List Char) := matchTokensF s.length s

/-- Prepend a character to the first segment of a segment list. -/
def consHead (c : Char) : List (List Char) → List (List Char)
  | [] => [[c]]
  | s :: ss => (c :: s) :: ss

/-- Split a string at the non-overlapping, leftmost occurrences of a
literal token: the result lists the segments between occurrences, so a
string with `k` occurrences yields `k + 1` segments.  This models the
global literal regex used by the binder for counting and replacing one
token. -/
def occSegsF (tok : List Char) : Nat → List Char → List (List Char)
  | 0, s => [s]
  | _ + 1, [] => [[]]
  | fuel + 1, c :: rest =>
    if tok ≠ [] ∧ tok.isPrefixOf (c :: rest) then
      [] :: occSegsF tok fuel (List.drop tok.length (c :: rest))
    else
      consHead c (occSegsF tok fuel rest)

/-- Join segments with a separator in between. -/
def joinSep (sep : List Char) : List (List Char) → List Char
  | [] => []
  | [s] => s
  | s :: s' :: ss => s ++ sep ++ joinSep sep (s' :: ss)

/-- Number of literal occurrences of `tok` in `s`
(the `processedQuery.match(regex).length` step of the binder). -/
def countTok (tok s : List Char) : Nat := (occSegsF tok s.length s).length - 1

/-- Replace every literal occurrence of `tok` in `s` by a positional
marker (the `processedQuery.replace(regex, q)` step of the binder). -/
def replaceTok (tok s : List Char) : List Char :=
  joinSep ['?'] (occSegsF tok s.length s)

/-- First-match association lookup: models reading a property of the
caller-supplied parameters object. -/
def lookupAssoc {α : Type} (m : List (List Char × α)) (k : List Char) : Option α :=
  match m with
  | [] => none
  | (k', v) :: rest => if k' = k then some v else lookupAssoc rest k

/-- The caller-supplied `parameters` value of the operations: absent or
non-object, a positional array, or a named map. -/
inductive Parameters (α : Type) where
  | absent
  | positional (ps : List α)
  | named (m : List (List Char × α))

/-- Result of the binder: rewritten query plus ordered argument list. -/
structure Bound (α : Type) where
  query : List Char
  params : List α
  deriving DecidableEq

/-- Accumulator of the named-parameter loop of `processParameters`:
the argument list built so far, the partially rewritten query, and the
set of token texts already processed. -/
structure BindSt (α : Type) where
  params : List α
  query : List Char
  processed : List (List Char)

/-- One iteration of the named-parameter loop: skip the token if its key
is not a property of the map or if it was already processed; otherwise
count all occurrences in the current query, push the value once per
occurrence, replace all occurrences with markers, and remember the
token. -/
def bindStep {α : Type} (m : List (List Char × α)) (st : BindSt α)
    (paramName : List Char) : BindSt α :=
  match lookupAssoc m (paramName.drop 1) with
  | none => st
  | some v =>
    if paramName ∈ st.processed then st
    else
      { params := st.params ++ List.replicate (countTok paramName st.query) v
        query := replaceTok paramName st.query
        processed := paramName :: st.processed }

/-- The named branch of `processParameters`: fold the loop over the
tokens matched in the original query. -/
def processNamed {α : Type} (m : List (List Char × α)) (query : List Char) : BindSt α :=
  (matchTokens query).foldl (bindStep m) ⟨[], query, []⟩

/-- `processParameters` of server.js: absent or non-object parameters
yield the query with an empty argument list, an array is already
positional, and a named map is rewritten by the token loop. -/
def processParameters {α : Type} (query : List Char) : Parameters α → Bound α
  | .absent => ⟨query, []⟩
  | .positional ps => ⟨query, ps⟩
  | .named m =>
    let st := processNamed m query
    ⟨st.query, st.params⟩

/-- Argument list prescribed by the specification text: one value per
named-token occurrence whose key is present in the map, in
left-to-right occurrence order of the original text.
Modelled from the spec: this is the order the binding-correctness
sentence of the spec demands; it is the comparison point for the
grouped order the source produces. -/
def specOrderedArgs {α : Type} (m : List (List Char × α)) (query : List Char) : List α :=
  (matchTokens query).filterMap (fun t => lookupAssoc m (t.drop 1))

example : matchTokens "@a @b @a".toList = ["@a".toList, "@b".toList, "@a".toList] := by
  decide

example :
    processParameters "@a @b @a".toList
      (Parameters.named [("a".toList, 1), ("b".toList, 2)]) =
    ⟨"? ? ?".toList, [1, 1, 2]⟩ := by
  decide

example :
    specOrderedArgs [("a".toList, 1), ("b".toList, 2)] "@a @b @a".toList = [1, 2, 1] := by
  decide

example :
    processParameters "SELECT * FROM u WHERE id = @id".toList
      (Parameters.named [("id".toList, 7)]) =
    ⟨"SELECT * FROM u WHERE id = ?".toList, [7]⟩ := by
  decide

theorem isPrefixOf_eq_append :
    ∀ (tok s : List Char), tok.isPrefixOf s = true → s = tok ++ List.drop tok.length s := by
  intro tok
  induction tok with
  | nil => intro s _; simp
  | cons a tok ih =>
    intro s h
    cases s with
    | nil => simp [List.isPrefixOf] at h
    | cons b s =>
      simp only [List.isPrefixOf, Bool.and_eq_true, beq_iff_eq] at h
      obtain ⟨rfl, h2⟩ := h
      simpa using ih s h2

theorem occSegsF_ne_nil (tok : List Char) (fuel : Nat) (s : List Char) :
    occSegsF tok fuel s ≠ [] := by
  cases fuel with
  | zero => simp [occSegsF]
  | succ fuel =>
    cases s with
    | nil => simp [occSegsF]
    | cons c rest =>
      simp only [occSegsF]
      split
      · simp
      · cases occSegsF tok fuel rest <;> simp [consHead]

theorem countQ_nil : countQ [] = 0 := rfl

theorem countQ_append (a b : List Char) : countQ (a ++ b) = countQ a + countQ b := by
  simp [countQ, List.count_append]

theorem countQ_cons (c : Char) (s : List Char) :
    countQ (c :: s) = countQ s + (if c = '?' then 1 else 0) := by
  by_cases h : c = '?'
  · subst h
    simp [countQ, List.count_cons]
  · have h' : ¬ ('?' = c) := fun hh => h hh.symm
    simp [countQ, List.count_cons, h, h']

theorem countQ_singleton (c : Char) : countQ [c] = if c = '?' then 1 else 0 := by
  rw [show ([c] : List Char) = c :: [] from rfl, countQ_cons, countQ_nil, Nat.zero_add]

theorem countQ_eq_zero (tok : List Char) (hq : '?' ∉ tok) : countQ tok = 0 := by
  simp [countQ, List.count_eq_zero, hq]

theorem consHead_map_countQ_sum (c : Char) (l : List (List Char)) :
    ((consHead c l).map countQ).sum = countQ [c] + (l.map countQ).sum := by
  cases l with
  | nil => simp [consHead]
  | cons s ss =>
    simp only [consHead, List.map_cons, List.sum_cons, countQ_cons, countQ_nil]
    omega

theorem countQ_occSegs (tok : List Char) (hq : '?' ∉ tok) :
    ∀ (fuel : Nat) (s : List Char), s.length ≤ fuel →
      ((occSegsF tok fuel s).map countQ).sum = countQ s := by
  intro fuel
  induction fuel with
  | zero =>
    intro s hs
    have : s = [] := List.eq_nil_of_length_eq_zero (Nat.le_zero.mp hs)
    subst this
    simp [occSegsF, countQ]
  | succ fuel ih =>
    intro s hs
    cases s with
    | nil => simp [occSegsF, countQ]
    | cons c rest =>
      simp only [occSegsF]
      split
      · rename_i h
        obtain ⟨hne, hpre⟩ := h
        have hdec := isPrefixOf_eq_append tok (c :: rest) hpre
        have hlen : (List.drop tok.length (c :: rest)).length ≤ fuel := by
          rw [List.length_drop]
          have h1 : 1 ≤ tok.length := List.length_pos.mpr hne
          simp only [List.length_cons] at hs ⊢
          omega
        have hsum := ih (List.drop tok.length (c :: rest)) hlen
        have hcount : countQ (c :: rest) = countQ (List.drop tok.length (c :: rest)) := by
          conv_lhs => rw [hdec]
          rw [countQ_append, countQ_eq_zero tok hq, Nat.zero_add]
        simp only [List.map_cons, List.sum_cons]
        rw [hsum, hcount, countQ_nil, Nat.zero_add]
      · rw [consHead_map_countQ_sum]
        rw [ih rest (by simp only [List.length_cons] at hs; omega)]
        simp only [countQ_cons, countQ_nil]
        omega

theorem joinSep_countQ :
    ∀ (l : List (List Char)), l ≠ [] →
      countQ (joinSep ['?'] l) = (l.map countQ).sum + (l.length - 1) := by
  intro l
  induction l with
  | nil => intro h; exact absurd rfl h
  | cons s ss ih =>
    intro _
    cases ss with
    | nil => simp [joinSep]
    | cons s' ss' =>
      have hih := ih (by simp)
      have hq1 : countQ ['?'] = 1 := rfl
      calc countQ (joinSep ['?'] (s :: s' :: ss'))
          = countQ s + countQ ['?'] + countQ (joinSep ['?'] (s' :: ss')) := by
            rw [show joinSep ['?'] (s :: s' :: ss') =
                  s ++ ['?'] ++ joinSep ['?'] (s' :: ss') from rfl]
            rw [countQ_append, countQ_append]
        _ = ((s :: s' :: ss').map countQ).sum + ((s :: s' :: ss').length - 1) := by
            rw [hih, hq1]
            simp only [List.map_cons, List.sum_cons, List.length_cons]
            omega

theorem countQ_replaceTok (tok s : List Char) (hq : '?' ∉ tok) :
    countQ (replaceTok tok s) = countQ s + countTok tok s := by
  unfold replaceTok countTok
  rw [joinSep_countQ _ (occSegsF_ne_nil tok s.length s)]
  rw [countQ_occSegs tok hq s.length s (Nat.le_refl _)]

theorem matchTokensF_no_marker :
    ∀ (fuel : Nat) (s t : List Char), t ∈ matchTokensF fuel s → '?' ∉ t := by
  intro fuel
  induction fuel with
  | zero => intro s t h; simp [matchTokensF] at h
  | succ fuel ih =>
    intro s t h
    cases s with
    | nil => simp [matchTokensF] at h
    | cons c rest =>
      simp only [matchTokensF] at h
      split at h
      · rename_i hcond
        rcases List.mem_cons.mp h with h1 | h2
        · subst h1
          intro hmem
          rcases List.mem_cons.mp hmem with h3 | h4
          · exact absurd (h3 ▸ hcond.1) (by simp [h3] at hcond; simp [hcond])
          · have := List.mem_takeWhile_imp h4
            simp [isWordChar] at this
        · exact ih _ t h2
      · exact ih _ t h

theorem tokens_no_marker (q t : List Char) (h : t ∈ matchTokens q) : '?' ∉ t :=
  matchTokensF_no_marker q.length q t h

theorem bindStep_invariant {α : Type} (m : List (List Char × α)) (st : BindSt α)
    (t : List Char) (hq : '?' ∉ t) :
    countQ (bindStep m st t).query + st.params.length =
      countQ st.query + (bindStep m st t).params.length := by
  unfold bindStep
  cases lookupAssoc m (t.drop 1) with
  | none => simp
  | some v =>
    simp only
    split
    · simp
    · simp only [List.length_append, List.length_replicate]
      rw [countQ_replaceTok t st.query hq]
      omega

theorem bind_fold_invariant {α : Type} (m : List (List Char × α)) :
    ∀ (ts : List (List Char)) (st : BindSt α), (∀ t ∈ ts, '?' ∉ t) →
      countQ (ts.foldl (bindStep m) st).query + st.params.length =
        countQ st.query + (ts.foldl (bindStep m) st).params.length := by
  intro ts
  induction ts with
  | nil => intro st _; simp
  | cons t ts ih =>
    intro st h
    have hstep := bindStep_invariant m st t (h t (List.mem_cons_self t ts))
    have htail := ih (bindStep m st t) (fun t' ht' => h t' (List.mem_cons_of_mem t ht'))
    simp only [List.foldl_cons] at *
    omega

/-- C5: the claim quantifies over every parameters value, but for a
positional list (and for absent parameters) the binder returns the SQL
and the list unchanged with no validation, so the marker count need not
equal the argument count: binding `SELECT 1` with one positional
argument yields zero markers and one argument. -/
theorem C5_counterexample :
    ¬ (countQ ((processParameters "SELECT 1".toList
          (Parameters.positional [(5 : Nat)])).query) =
        ((processParameters "SELECT 1".toList
          (Parameters.positional [(5 : Nat)])).params).length) := by
  decide

/-- C5 (amended): for named-map parameters the binder adds exactly one
positional marker per pushed argument, so the marker count of the
rewritten SQL equals the marker count of the original SQL plus the
length of the argument list; in particular, when the original SQL
contains no pre-existing markers, the marker count of the rewritten SQL
equals the argument count exactly. -/
theorem C5_named_marker_arg_balance {α : Type} (m : List (List Char × α)) (q : List Char) :
    countQ ((processParameters q (Parameters.named m)).query) =
        countQ q + ((processParameters q (Parameters.named m)).params).length
    ∧ (countQ q = 0 →
        countQ ((processParameters q (Parameters.named m)).query) =
          ((processParameters q (Parameters.named m)).params).length) := by
  have h := bind_fold_invariant m (matchTokens q) ⟨[], q, []⟩ (tokens_no_marker q)
  simp only [List.length_nil, Nat.add_zero] at h
  simp only [processParameters, processNamed]
  exact ⟨h, fun h0 => by rw [h, h0, Nat.zero_add]⟩

/-- C5 witness for the amended theorem: a concrete named-map binding of
a query without pre-existing markers, where the marker count of the
rewritten SQL equals the argument count. -/
theorem C5_named_marker_arg_balance_witness :
    countQ ((processParameters "@x and @x".toList
        (Parameters.named [("x".toList, (3 : Nat))])).query) =
      ((processParameters "@x and @x".toList
        (Parameters.named [("x".toList, (3 : Nat))])).params).length :=
  (C5_named_marker_arg_balance [("x".toList, (3 : Nat))] "@x and @x".toList).2 (by decide)

/-- C1: at the failing input, SQL text with tokens occurring in the
interleaved order a, b, a and both keys present, the binder produces
three markers and three arguments, but the arguments come out grouped
per distinct token as 1, 1, 2 while left-to-right occurrence order,
written out by specOrderedArgs, is 1, 2, 1 — so the third marker is
bound to the wrong value. -/
theorem C1_args_grouped_not_occurrence_order :
    processParameters "@a @b @a".toList
        (Parameters.named [("a".toList, 1), ("b".toList, 2)]) =
      ⟨"? ? ?".toList, [1, 1, 2]⟩
    ∧ specOrderedArgs [("a".toList, 1), ("b".toList, 2)] "@a @b @a".toList = [1, 2, 1]
    ∧ ([1, 1, 2] : List Nat) ≠ [1, 2, 1] := by
  decide

/-! ## Pool statistics (_pool.js, ConnectionPool.execute) -/

/-- The stats aggregate of the connection pool.  Durations are modelled
over the rationals (exact arithmetic standing in for the doubles of the
source). -/
structure Stats where
  totalQueries : Nat
  slowQueries : Nat
  failedQueries : Nat
  totalTime : ℚ
  averageTime : ℚ
  deriving DecidableEq

/-- The zero-initialised stats of the pool constructor. -/
def initStats : Stats := ⟨0, 0, 0, 0, 0⟩

/-- Outcome of one ConnectionPool.execute call: the driver either
returns after the measured duration or throws. -/
inductive QOutcome where
  | success (duration : ℚ)
  | failure

/-- The stats update of ConnectionPool.execute: on success increment
totalQueries, add the duration to totalTime, fold the duration into the
incremental average dividing by the incremented count, and increment
slowQueries when the duration exceeds 150; on a driver exception only
failedQueries is incremented. -/
def recordOutcome (s : Stats) : QOutcome → Stats
  | .success d =>
    { totalQueries := s.totalQueries + 1
      slowQueries := if 150 < d then s.slowQueries + 1 else s.slowQueries
      failedQueries := s.failedQueries
      totalTime := s.totalTime + d
      averageTime := s.averageTime + (d - s.averageTime) / ((s.totalQueries : ℚ) + 1) }
  | .failure => { s with failedQueries := s.failedQueries + 1 }

/-- Stats after a sequence of execute calls. -/
def runStats (s : Stats) (l : List QOutcome) : Stats := l.foldl recordOutcome s

/-- The durations of the successful calls of a sequence, in order. -/
def durations : List QOutcome → List ℚ
  | [] => []
  | .success d :: l => d :: durations l
  | .failure :: l => durations l

/-- The number of failed calls of a sequence. -/
def numFailures : List QOutcome → Nat
  | [] => 0
  | .success _ :: l => numFailures l
  | .failure :: l => numFailures l + 1

theorem runStats_spec :
    ∀ (l : List QOutcome) (s : Stats),
      (runStats s l).totalQueries = s.totalQueries + (durations l).length
      ∧ (runStats s l).failedQueries = s.failedQueries + numFailures l
      ∧ (runStats s l).totalTime = s.totalTime + (durations l).sum
      ∧ (runStats s l).averageTime * ((runStats s l).totalQueries : ℚ) =
          s.averageTime * (s.totalQueries : ℚ) + (durations l).sum
      ∧ (durations l = [] → (runStats s l).averageTime = s.averageTime)
      ∧ s.slowQueries ≤ (runStats s l).slowQueries
      ∧ (runStats s l).slowQueries ≤ s.slowQueries + (durations l).length := by
  intro l
  induction l with
  | nil => intro s; simp [runStats, durations, numFailures]
  | cons o l ih =>
    intro s
    cases o with
    | success d =>
      obtain ⟨h1, h2, h3, h4, _h5, h6, h7⟩ := ih (recordOutcome s (.success d))
      have hrun : runStats s (.success d :: l) = runStats (recordOutcome s (.success d)) l := rfl
      have hne : ((s.totalQueries : ℚ) + 1) ≠ 0 := by positivity
      refine ⟨?_, ?_, ?_, ?_, ?_, ?_, ?_⟩
      · rw [hrun, h1]
        simp [recordOutcome, durations]
        omega
      · rw [hrun, h2]
        simp [recordOutcome, durations, numFailures]
      · rw [hrun, h3]
        simp [recordOutcome, durations]
        ring
      · rw [hrun, h4]
        have hrec : (recordOutcome s (.success d)).averageTime *
            ((recordOutcome s (.success d)).totalQueries : ℚ) =
            s.averageTime * (s.totalQueries : ℚ) + d := by
          simp only [recordOutcome]
          push_cast
          field_simp
          ring
        rw [hrec]
        simp [durations]
        ring
      · intro habs
        simp [durations] at habs
      · refine le_trans ?_ h6
        simp only [recordOutcome]
        split <;> omega
      · refine le_trans h7 ?_
        simp only [recordOutcome, durations, List.length_cons]
        split <;> omega
    | failure =>
      obtain ⟨h1, h2, h3, h4, h5, h6, h7⟩ := ih (recordOutcome s .failure)
      have hrun : runStats s (.failure :: l) = runStats (recordOutcome s .failure) l := rfl
      refine ⟨?_, ?_, ?_, ?_, ?_, ?_, ?_⟩
      · rw [hrun, h1]; simp [recordOutcome, durations]
      · rw [hrun, h2]; simp [recordOutcome, numFailures]; omega
      · rw [hrun, h3]; simp [recordOutcome, durations]
      · rw [hrun, h4]; simp [recordOutcome, durations]
      · intro habs
        rw [hrun]
        have := h5 (by simpa [durations] using habs)
        simpa [recordOutcome] using this
      · refine le_trans ?_ h6
        simp [recordOutcome]
      · refine le_trans h7 ?_
        simp [recordOutcome, durations]

/-- C4: over any sequence of execute outcomes starting from the
zero-initialised stats, totalQueries counts exactly the successful
calls, averageTime is exactly the arithmetic mean of the successful
durations (zero when there has been no success, matching the rational
convention sum/0 = 0), failedQueries counts the failed calls, and
totalTime is the sum of the successful durations: failures contribute
no duration. -/
theorem C4_stats_welford_mean (l : List QOutcome) :
    (runStats initStats l).totalQueries = (durations l).length
    ∧ (runStats initStats l).averageTime =
        (durations l).sum / ((durations l).length : ℚ)
    ∧ (runStats initStats l).failedQueries = numFailures l
    ∧ (runStats initStats l).totalTime = (durations l).sum := by
  obtain ⟨h1, h2, h3, h4, h5, _, _⟩ := runStats_spec l initStats
  simp only [initStats] at h1 h2 h3 h4 h5 ⊢
  refine ⟨by simpa using h1, ?_, by simpa using h2, by simpa using h3⟩
  rcases Decidable.em ((durations l).length = 0) with h0 | h0
  · have hnil : durations l = [] := List.eq_nil_of_length_eq_zero h0
    rw [h5 hnil, hnil]
    simp
  · have hq : ((durations l).length : ℚ) ≠ 0 := Nat.cast_ne_zero.mpr h0
    rw [eq_div_iff hq]
    have := h4
    rw [h1] at this
    simpa using this

/-- C10: each execute call moves exactly one of the two outcome
counters (totalQueries on success, failedQueries on driver error); the
three counters never decrease over a call sequence; slowQueries stays
bounded by totalQueries whenever it starts that way; and a failed call
leaves totalQueries, slowQueries, totalTime and averageTime all
unchanged. -/
theorem C10_stats_step_accounting (s : Stats) (o : QOutcome) (l : List QOutcome) :
    (recordOutcome s o).totalQueries + (recordOutcome s o).failedQueries =
        s.totalQueries + s.failedQueries + 1
    ∧ s.totalQueries ≤ (runStats s l).totalQueries
    ∧ s.slowQueries ≤ (runStats s l).slowQueries
    ∧ s.failedQueries ≤ (runStats s l).failedQueries
    ∧ (s.slowQueries ≤ s.totalQueries →
        (runStats s l).slowQueries ≤ (runStats s l).totalQueries)
    ∧ (recordOutcome s .failure).totalQueries = s.totalQueries
    ∧ (recordOutcome s .failure).slowQueries = s.slowQueries
    ∧ (recordOutcome s .failure).totalTime = s.totalTime
    ∧ (recordOutcome s .failure).averageTime = s.averageTime := by
  obtain ⟨h1, h2, _h3, _h4, _h5, h6, h7⟩ := runStats_spec l s
  refine ⟨?_, ?_, ?_, ?_, ?_, rfl, rfl, rfl, rfl⟩
  · cases o with
    | success d => simp only [recordOutcome]; omega
    | failure => simp only [recordOutcome]; omega
  · omega
  · exact h6
  · omega
  · intro hst
    omega

/-- C10 witness: at a concrete starting state, a failure outcome and a
two-call sequence, all conjuncts hold with the boundedness hypothesis
discharged. -/
theorem C10_stats_step_accounting_witness :
    (runStats ⟨2, 1, 0, 10, 5⟩ [QOutcome.success 200, QOutcome.failure]).slowQueries ≤
      (runStats ⟨2, 1, 0, 10, 5⟩ [QOutcome.success 200, QOutcome.failure]).totalQueries :=
  (C10_stats_step_accounting ⟨2, 1, 0, 10, 5⟩ QOutcome.failure
      [QOutcome.success 200, QOutcome.failure]).2.2.2.2.1 (by decide)

/-! ## Query engine (server.js operations) -/

/-- A result row, a list of column-name/value pairs in field order. -/
abbrev Row (α : Type) := List (List Char × α)

/-- A driver result: the row set of a SELECT, or the header fields read
by the insert and update operations (absent fields model the JavaScript
or-zero defaulting). -/
structure DriverRes (α : Type) where
  rows : List (Row α)
  insertId : Option Nat
  affectedRows : Option Nat
  deriving DecidableEq

/-- One recorded driver call: the processed query and its bound
arguments, used to state that the gated operations never contact the
driver. -/
abbrev Call (α : Type) := List Char × List α

/-- The environment of the operations: the pool readiness flag and the
driver behaviour as deterministic oracles — the pooled fast path, the
acquisition of a dedicated connection, and the begin/execute/commit/
rollback commands on it. -/
structure PoolW (α : Type) where
  ready : Bool
  exec : List Char → List α → Except String (DriverRes α)
  acquireOk : Bool
  beginOk : Bool
  connExec : List Char → List α → Except String (DriverRes α)
  commitOk : Bool
  rollbackErr : Option String

/-- query(): full row set, empty list on pool-not-ready or driver
error. -/
def queryOp {α : Type} (w : PoolW α) (sql : List Char) (ps : Parameters α) :
    List (Row α) × List (Call α) :=
  if w.ready then
    let b := processParameters sql ps
    match w.exec b.query b.params with
    | .ok res => (res.rows, [(b.query, b.params)])
    | .error _ => ([], [(b.query, b.params)])
  else ([], [])

/-- fetchSingle(): first row or null. -/
def fetchSingleOp {α : Type} (w : PoolW α) (sql : List Char) (ps : Parameters α) :
    Option (Row α) × List (Call α) :=
  if w.ready then
    let b := processParameters sql ps
    match w.exec b.query b.params with
    | .ok res => (res.rows.head?, [(b.query, b.params)])
    | .error _ => (none, [(b.query, b.params)])
  else (none, [])

/-- fetchScalar(): value of the first column of the first row, or
null. -/
def fetchScalarOp {α : Type} (w : PoolW α) (sql : List Char) (ps : Parameters α) :
    Option α × List (Call α) :=
  if w.ready then
    let b := processParameters sql ps
    match w.exec b.query b.params with
    | .ok res =>
      (match res.rows.head? with
       | some firstRow =>
         match firstRow.head? with
         | some kv => some kv.2
         | none => none
       | none => none, [(b.query, b.params)])
    | .error _ => (none, [(b.query, b.params)])
  else (none, [])

/-- insert(): driver-reported insert id, or 0. -/
def insertOp {α : Type} (w : PoolW α) (sql : List Char) (ps : Parameters α) :
    Nat × List (Call α) :=
  if w.ready then
    let b := processParameters sql ps
    match w.exec b.query b.params with
    | .ok res => (res.insertId.getD 0, [(b.query, b.params)])
    | .error _ => (0, [(b.query, b.params)])
  else (0, [])

/-- update(): driver-reported affected-row count, or 0. -/
def updateOp {α : Type} (w : PoolW α) (sql : List Char) (ps : Parameters α) :
    Nat × List (Call α) :=
  if w.ready then
    let b := processParameters sql ps
    match w.exec b.query b.params with
    | .ok res => (res.affectedRows.getD 0, [(b.query, b.params)])
    | .error _ => (0, [(b.query, b.params)])
  else (0, [])

/-- The sequential loop of batch(): results so far, the calls issued,
and whether every entry succeeded. -/
def batchLoop {α : Type} (w : PoolW α) :
    List (List Char × Parameters α) → List (DriverRes α) × List (Call α) × Bool
  | [] => ([], [], true)
  | (sql, ps) :: rest =>
    let b := processParameters sql ps
    match w.exec b.query b.params with
    | .ok r =>
      let t := batchLoop w rest
      (r :: t.1, (b.query, b.params) :: t.2.1, t.2.2)
    | .error _ => ([], [(b.query, b.params)], false)

/-- batch(): each entry through the pooled fast path; a failing entry
aborts the batch and the whole call returns an empty list. -/
def batchOp {α : Type} (w : PoolW α) (entries : List (List Char × Parameters α)) :
    List (DriverRes α) × List (Call α) :=
  if w.ready then
    let t := batchLoop w entries
    (if t.2.2 then t.1 else [], t.2.1)
  else ([], [])

/-! ## Statement classification and type-routed dispatch -/

/-- The query-type extraction of executeByQueryType: the first run of
word characters after any leading whitespace, uppercased; empty when
the text starts with a non-word, non-space character or is exhausted. -/
def classify (sql : List Char) : List Char :=
  ((sql.dropWhile Char.isWhitespace).takeWhile isWordChar).map Char.toUpper

/-- The heterogeneous result of the type-routed dispatch. -/
inductive Shaped (α : Type) where
  | rows (rs : List (Row α))
  | insertId (n : Nat)
  | affected (n : Nat)
  | nullValue
  deriving DecidableEq

/-- executeByQueryType: route SELECT to the row-set path, INSERT to the
insert-id path, UPDATE and DELETE to the affected-rows path, and
anything else to the row-set path with a warning flag (the Boolean of
the result triple). -/
def executeByQueryType {α : Type} (w : PoolW α) (sql : List Char) (ps : Parameters α) :
    Shaped α × List (Call α) × Bool :=
  let queryType := classify sql
  if queryType = "SELECT".toList then
    (Shaped.rows (queryOp w sql ps).1, (queryOp w sql ps).2, false)
  else if queryType = "INSERT".toList then
    (Shaped.insertId (insertOp w sql ps).1, (insertOp w sql ps).2, false)
  else if queryType = "UPDATE".toList ∨ queryType = "DELETE".toList then
    (Shaped.affected (updateOp w sql ps).1, (updateOp w sql ps).2, false)
  else
    (Shaped.rows (queryOp w sql ps).1, (queryOp w sql ps).2, true)

/-! ## Prepared-query registry -/

/-- The module state of server.js backing prepareQuery and
executePrepared: the monotonically increasing id counter and the
id-to-SQL map. -/
structure Registry where
  queryIdCounter : Nat
  preparedQueries : List (String × List Char)

/-- prepareQuery(): increment the counter, build the handle id, store
the SQL under it, return the id together with the updated registry. -/
def prepareQuery (r : Registry) (sql : List Char) : String × Registry :=
  let queryId := "prepared_" ++ toString (r.queryIdCounter + 1)
  (queryId, ⟨r.queryIdCounter + 1, (queryId, sql) :: r.preparedQueries⟩)

/-- Latest-first handle lookup (the Map lookup of executePrepared). -/
def lookupPrepared : List (String × List Char) → String → Option (List Char)
  | [], _ => none
  | (k, v) :: rest, queryId => if k = queryId then some v else lookupPrepared rest queryId

/-- executePrepared(): look the stored SQL up by handle and delegate to
the type-routed dispatch; an unknown handle is caught and yields null
without any driver call. -/
def executePrepared {α : Type} (r : Registry) (w : PoolW α) (queryId : String)
    (ps : Parameters α) : Shaped α × List (Call α) × Bool :=
  match lookupPrepared r.preparedQueries queryId with
  | none => (Shaped.nullValue, [], false)
  | some sql => executeByQueryType w sql ps

/-! ## Transactions -/

/-- Commands issued on the pool and the checked-out connection during
transaction(). -/
inductive TxEv (α : Type) where
  | getConn
  | beginTx
  | exec (query : List Char) (params : List α)
  | commit
  | rollback
  | release
  deriving DecidableEq

/-- The value transaction() resolves with. -/
structure TxResult (α : Type) where
  success : Bool
  results : List (DriverRes α)
  deriving DecidableEq

/-- Observable completion of transaction(): a normal return, or an
exception escaping to the caller. -/
inductive TxOut (α : Type) where
  | ret (r : TxResult α)
  | thrown (e : String)
  deriving DecidableEq

/-- The catch block of transaction() when a connection is held: issue
rollback; if the rollback command itself throws, that exception escapes
the catch block and the function rejects with it; either way the
finally block releases the connection. -/
def txCatch {α : Type} (w : PoolW α) (evs : List (TxEv α)) : TxOut α × List (TxEv α) :=
  match w.rollbackErr with
  | none => (TxOut.ret ⟨false, []⟩, evs ++ [TxEv.rollback, TxEv.release])
  | some e => (TxOut.thrown e, evs ++ [TxEv.rollback, TxEv.release])

/-- The entry loop of transaction(): bind each entry's parameters and
execute it on the checked-out connection, accumulating results until an
entry throws. -/
def txLoop {α : Type} (w : PoolW α) :
    List (List Char × Parameters α) → List (TxEv α) × Except String (List (DriverRes α))
  | [] => ([], Except.ok [])
  | (sql, ps) :: rest =>
    let b := processParameters sql ps
    match w.connExec b.query b.params with
    | .error e => ([TxEv.exec b.query b.params], Except.error e)
    | .ok r =>
      let t := txLoop w rest
      (TxEv.exec b.query b.params :: t.1, t.2.map (r :: ·))

/-- transaction() of server.js: readiness gate, connection checkout,
begin, the entry loop, commit; any exception reaches the catch block,
which rolls back when a connection is held; the finally block releases
a held connection on every path. -/
def transaction {α : Type} (w : PoolW α) (entries : List (List Char × Parameters α)) :
    TxOut α × List (TxEv α) :=
  if w.ready then
    if w.acquireOk then
      if w.beginOk then
        match txLoop w entries with
        | (levs, .error _) => txCatch w (TxEv.getConn :: TxEv.beginTx :: levs)
        | (levs, .ok results) =>
          if w.commitOk then
            (TxOut.ret ⟨true, results⟩,
              (TxEv.getConn :: TxEv.beginTx :: levs) ++ [TxEv.commit, TxEv.release])
          else txCatch w ((TxEv.getConn :: TxEv.beginTx :: levs) ++ [TxEv.commit])
      else txCatch w [TxEv.getConn, TxEv.beginTx]
    else (TxOut.ret ⟨false, []⟩, [TxEv.getConn])
  else (TxOut.ret ⟨false, []⟩, [])

/-- Whether executing one entry on the checked-out connection would
raise a driver error. -/
def entryFails {α : Type} (w : PoolW α) (ent : List Char × Parameters α) : Bool :=
  match w.connExec (processParameters ent.1 ent.2).query
      (processParameters ent.1 ent.2).params with
  | .error _ => true
  | .ok _ => false

theorem getLast?_append_pair {β : Type} (xs : List β) (a b : β) :
    (xs ++ [a, b]).getLast? = some b := by
  have h : xs ++ [a, b] = (xs ++ [a]) ++ [b] := by simp
  rw [h, List.getLast?_concat]

theorem txCatch_snd_getLast {α : Type} (w : PoolW α) (evs : List (TxEv α)) :
    (txCatch w evs).2.getLast? = some TxEv.release := by
  unfold txCatch
  cases w.rollbackErr with
  | none => exact getLast?_append_pair _ _ _
  | some e => exact getLast?_append_pair _ _ _

theorem txOkBranchLast {α : Type} (w : PoolW α) (levs : List (TxEv α))
    (results : List (DriverRes α)) :
    ((if w.commitOk then
        (TxOut.ret ⟨true, results⟩,
          (TxEv.getConn :: TxEv.beginTx :: levs) ++ [TxEv.commit, TxEv.release])
      else txCatch w ((TxEv.getConn :: TxEv.beginTx :: levs) ++ [TxEv.commit])) :
      TxOut α × List (TxEv α)).2.getLast? = some TxEv.release := by
  split
  · exact getLast?_append_pair _ _ _
  · exact txCatch_snd_getLast w _

theorem txLoop_no_commit {α : Type} (w : PoolW α) :
    ∀ (entries : List (List Char × Parameters α)), TxEv.commit ∉ (txLoop w entries).1 := by
  intro entries
  induction entries with
  | nil => simp [txLoop]
  | cons ent rest ih =>
    obtain ⟨sql, ps⟩ := ent
    simp only [txLoop]
    cases hx : w.connExec (processParameters sql ps).query (processParameters sql ps).params with
    | error e => simp
    | ok r =>
      simp only [List.mem_cons, not_or]
      exact ⟨by simp, ih⟩

theorem txLoop_error_of_fail {α : Type} (w : PoolW α) :
    ∀ (entries : List (List Char × Parameters α)),
      (∃ ent ∈ entries, entryFails w ent = true) →
      ∃ e, (txLoop w entries).2 = Except.error e := by
  intro entries
  induction entries with
  | nil => rintro ⟨ent, h, _⟩; simp at h
  | cons hd rest ih =>
    rintro ⟨ent, hmem, hfail⟩
    obtain ⟨sql, ps⟩ := hd
    simp only [txLoop]
    cases hx : w.connExec (processParameters sql ps).query (processParameters sql ps).params with
    | error e => exact ⟨e, rfl⟩
    | ok r =>
      rcases List.mem_cons.mp hmem with rfl | hmem'
      · exfalso
        unfold entryFails at hfail
        rw [hx] at hfail
        simp at hfail
      · obtain ⟨e, he⟩ := ih ⟨ent, hmem', hfail⟩
        refine ⟨e, ?_⟩
        simp only
        rw [he]
        rfl

/-- C2: when an entry of the list raises a driver error (and the
rollback command behaves normally), transaction() returns the failure
result with an empty result list, a rollback is issued on the
checked-out connection before returning and no commit is ever issued,
and — on every path on which a connection was checked out, success or
failure — the very last command is the release of that connection back
to the pool. -/
theorem C2_transaction_failure_rollback_release {α : Type} (w : PoolW α)
    (entries : List (List Char × Parameters α)) :
    (w.ready = true → w.acquireOk = true →
      (transaction w entries).2.getLast? = some TxEv.release)
    ∧ (w.ready = true → w.acquireOk = true → w.beginOk = true → w.rollbackErr = none →
        (∃ ent ∈ entries, entryFails w ent = true) →
          (transaction w entries).1 = TxOut.ret ⟨false, []⟩
          ∧ TxEv.rollback ∈ (transaction w entries).2
          ∧ TxEv.commit ∉ (transaction w entries).2
          ∧ (transaction w entries).2.getLast? = some TxEv.release) := by
  constructor
  · intro hready hacq
    unfold transaction
    rw [if_pos hready, if_pos hacq]
    cases hbeg : w.beginOk with
    | false =>
      rw [if_neg (by simp)]
      exact txCatch_snd_getLast w _
    | true =>
      rw [if_pos rfl]
      cases htx : txLoop w entries with
      | mk levs r =>
        cases r with
        | error e => exact txCatch_snd_getLast w _
        | ok results => exact txOkBranchLast w levs results
  · intro hready hacq hbeg hroll hex
    have hnc := txLoop_no_commit w entries
    obtain ⟨e, he⟩ := txLoop_error_of_fail w entries hex
    unfold transaction
    rw [if_pos hready, if_pos hacq, if_pos hbeg]
    cases htx : txLoop w entries with
    | mk levs r =>
      rw [htx] at he hnc
      simp only at he hnc
      subst he
      show (txCatch w (TxEv.getConn :: TxEv.beginTx :: levs)).1 = TxOut.ret ⟨false, []⟩
        ∧ TxEv.rollback ∈ (txCatch w (TxEv.getConn :: TxEv.beginTx :: levs)).2
        ∧ TxEv.commit ∉ (txCatch w (TxEv.getConn :: TxEv.beginTx :: levs)).2
        ∧ (txCatch w (TxEv.getConn :: TxEv.beginTx :: levs)).2.getLast? = some TxEv.release
      unfold txCatch
      rw [hroll]
      refine ⟨rfl, ?_, ?_, getLast?_append_pair _ _ _⟩
      · simp
      · simp only [List.mem_append, List.mem_cons, not_or]
        exact ⟨⟨by simp, by simp, hnc⟩, by simp⟩

/-- C2 witness: a concrete one-entry transaction whose entry raises a
constraint violation on a ready pool with a working rollback: the call
returns the failure result. -/
theorem C2_transaction_failure_rollback_release_witness :
    (transaction
        (⟨true, fun _ _ => Except.ok ⟨[], none, none⟩, true, true,
          fun _ _ => Except.error "constraint violation", true, none⟩ : PoolW Nat)
        [("INSERT INTO t VALUES (1)".toList, Parameters.absent)]).1 =
      TxOut.ret ⟨false, []⟩ :=
  ((C2_transaction_failure_rollback_release
      (⟨true, fun _ _ => Except.ok ⟨[], none, none⟩, true, true,
        fun _ _ => Except.error "constraint violation", true, none⟩ : PoolW Nat)
      [("INSERT INTO t VALUES (1)".toList, Parameters.absent)]).2
    rfl rfl rfl rfl
    ⟨("INSERT INTO t VALUES (1)".toList, Parameters.absent), by simp, rfl⟩).1

/-- C6: at the failing input — a ready pool, one entry raising a driver
error, and a rollback command that itself throws — transaction() does
not return the failure result reporting the original cause: the
rollback exception escapes the catch block and the call rejects with
the rollback error, masking the original driver error (the connection
is still released by the finally block). -/
theorem C6_rollback_failure_masks_original :
    transaction
        (⟨true, fun _ _ => Except.ok ⟨[], none, none⟩, true, true,
          fun _ _ => Except.error "duplicate key", true,
          some "rollback connection lost"⟩ : PoolW Nat)
        [("INSERT INTO t VALUES (1)".toList, Parameters.absent)] =
      (TxOut.thrown "rollback connection lost",
        [TxEv.getConn, TxEv.beginTx,
          TxEv.exec "INSERT INTO t VALUES (1)".toList [],
          TxEv.rollback, TxEv.release])
    ∧ ("rollback connection lost" : String) ≠ "duplicate key"
    ∧ (TxOut.thrown "rollback connection lost" : TxOut Nat) ≠ TxOut.ret ⟨false, []⟩ := by
  refine ⟨rfl, by decide, by decide⟩

/-- C3: every operation invoked while the pool's ready flag is false
returns its type-appropriate zero value — empty list for query and
batch, null for fetchSingle and fetchScalar, 0 for insert and update,
and the failure record for transaction — with no driver call recorded
and no exception. -/
theorem C3_readiness_gating {α : Type} (w : PoolW α) (sql : List Char)
    (ps : Parameters α) (entries : List (List Char × Parameters α))
    (h : w.ready = false) :
    queryOp w sql ps = ([], [])
    ∧ fetchSingleOp w sql ps = (none, [])
    ∧ fetchScalarOp w sql ps = (none, [])
    ∧ insertOp w sql ps = (0, [])
    ∧ updateOp w sql ps = (0, [])
    ∧ batchOp w entries = ([], [])
    ∧ transaction w entries = (TxOut.ret ⟨false, []⟩, []) := by
  refine ⟨?_, ?_, ?_, ?_, ?_, ?_, ?_⟩ <;>
    simp [queryOp, fetchSingleOp, fetchScalarOp, insertOp, updateOp, batchOp,
      transaction, h]

/-- C3 witness: the row operation on a concrete not-ready pool yields
the empty row set and no driver call. -/
theorem C3_readiness_gating_witness :
    queryOp
        (⟨false, fun _ _ => Except.ok ⟨[], none, none⟩, true, true,
          fun _ _ => Except.ok ⟨[], none, none⟩, true, none⟩ : PoolW Nat)
        "SELECT 1".toList Parameters.absent = ([], []) :=
  (C3_readiness_gating
      (⟨false, fun _ _ => Except.ok ⟨[], none, none⟩, true, true,
        fun _ _ => Except.ok ⟨[], none, none⟩, true, none⟩ : PoolW Nat)
      "SELECT 1".toList Parameters.absent [] rfl).1

theorem executeByQueryType_select {α : Type} (w : PoolW α) (sql : List Char)
    (ps : Parameters α) (h : classify sql = "SELECT".toList) :
    executeByQueryType w sql ps =
      (Shaped.rows (queryOp w sql ps).1, (queryOp w sql ps).2, false) := by
  simp only [executeByQueryType]
  rw [h, if_pos rfl]

theorem executeByQueryType_insert {α : Type} (w : PoolW α) (sql : List Char)
    (ps : Parameters α) (h : classify sql = "INSERT".toList) :
    executeByQueryType w sql ps =
      (Shaped.insertId (insertOp w sql ps).1, (insertOp w sql ps).2, false) := by
  simp only [executeByQueryType]
  rw [h, if_neg (by decide), if_pos rfl]

theorem executeByQueryType_update {α : Type} (w : PoolW α) (sql : List Char)
    (ps : Parameters α) (h : classify sql = "UPDATE".toList ∨ classify sql = "DELETE".toList) :
    executeByQueryType w sql ps =
      (Shaped.affected (updateOp w sql ps).1, (updateOp w sql ps).2, false) := by
  simp only [executeByQueryType]
  rcases h with h | h
  · rw [h, if_neg (by decide), if_neg (by decide), if_pos (Or.inl rfl)]
  · rw [h, if_neg (by decide), if_neg (by decide), if_pos (Or.inr rfl)]

theorem executeByQueryType_default {α : Type} (w : PoolW α) (sql : List Char)
    (ps : Parameters α) (h1 : classify sql ≠ "SELECT".toList)
    (h2 : classify sql ≠ "INSERT".toList) (h3 : classify sql ≠ "UPDATE".toList)
    (h4 : classify sql ≠ "DELETE".toList) :
    executeByQueryType w sql ps =
      (Shaped.rows (queryOp w sql ps).1, (queryOp w sql ps).2, true) := by
  simp only [executeByQueryType]
  rw [if_neg h1, if_neg h2, if_neg (fun h => h.elim h3 h4)]

/-- C7: executing a freshly prepared handle routes the stored SQL
through the same type-routed dispatch as executing the SQL directly,
with identical result, driver calls and warning flag; in particular a
prepared SELECT behaves exactly as the row-set operation on the same
text. -/
theorem C7_prepared_round_trip {α : Type} (w : PoolW α) (r : Registry)
    (sql : List Char) (ps : Parameters α) :
    executePrepared (prepareQuery r sql).2 w (prepareQuery r sql).1 ps =
      executeByQueryType w sql ps
    ∧ executePrepared (prepareQuery r "SELECT 1".toList).2 w
        (prepareQuery r "SELECT 1".toList).1 ps =
      (Shaped.rows (queryOp w "SELECT 1".toList ps).1,
        (queryOp w "SELECT 1".toList ps).2, false) := by
  have hmain : ∀ (s : List Char),
      executePrepared (prepareQuery r s).2 w (prepareQuery r s).1 ps =
        executeByQueryType w s ps := by
    intro s
    simp [prepareQuery, executePrepared, lookupPrepared]
  refine ⟨hmain sql, ?_⟩
  rw [hmain "SELECT 1".toList]
  exact executeByQueryType_select w _ ps (by decide)

/-- C8: the classifier uppercases the first word-character run after
leading whitespace — the spec's two instances evaluate to SELECT and
INSERT — and the dispatcher routes SELECT to the row-set path, INSERT
to the insert-id path, UPDATE and DELETE to the affected-rows path, and
every other classification (including empty) to the row-returning path
with the warning flag set, always returning normally. -/
theorem C8_classification_and_routing {α : Type} (w : PoolW α) (sql : List Char)
    (ps : Parameters α) :
    classify "  select * from t".toList = "SELECT".toList
    ∧ classify "INSERT INTO t...".toList = "INSERT".toList
    ∧ (classify sql = "SELECT".toList →
        executeByQueryType w sql ps =
          (Shaped.rows (queryOp w sql ps).1, (queryOp w sql ps).2, false))
    ∧ (classify sql = "INSERT".toList →
        executeByQueryType w sql ps =
          (Shaped.insertId (insertOp w sql ps).1, (insertOp w sql ps).2, false))
    ∧ (classify sql = "UPDATE".toList ∨ classify sql = "DELETE".toList →
        executeByQueryType w sql ps =
          (Shaped.affected (updateOp w sql ps).1, (updateOp w sql ps).2, false))
    ∧ (classify sql ≠ "SELECT".toList → classify sql ≠ "INSERT".toList →
        classify sql ≠ "UPDATE".toList → classify sql ≠ "DELETE".toList →
        executeByQueryType w sql ps =
          (Shaped.rows (queryOp w sql ps).1, (queryOp w sql ps).2, true)) := by
  exact ⟨by decide, by decide, executeByQueryType_select w sql ps,
    executeByQueryType_insert w sql ps, executeByQueryType_update w sql ps,
    executeByQueryType_default w sql ps⟩

/-- C8 witness: an unrecognised leading keyword on a concrete ready
pool takes the row-returning default path with the warning flag set. -/
theorem C8_classification_and_routing_witness :
    executeByQueryType
        (⟨true, fun _ _ => Except.ok ⟨[], none, none⟩, true, true,
          fun _ _ => Except.ok ⟨[], none, none⟩, true, none⟩ : PoolW Nat)
        "DROP TABLE t".toList Parameters.absent =
      (Shaped.rows
          (queryOp (⟨true, fun _ _ => Except.ok ⟨[], none, none⟩, true, true,
            fun _ _ => Except.ok ⟨[], none, none⟩, true, none⟩ : PoolW Nat)
            "DROP TABLE t".toList Parameters.absent).1,
        (queryOp (⟨true, fun _ _ => Except.ok ⟨[], none, none⟩, true, true,
          fun _ _ => Except.ok ⟨[], none, none⟩, true, none⟩ : PoolW Nat)
          "DROP TABLE t".toList Parameters.absent).2, true) :=
  (C8_classification_and_routing
      (⟨true, fun _ _ => Except.ok ⟨[], none, none⟩, true, true,
        fun _ _ => Except.ok ⟨[], none, none⟩, true, none⟩ : PoolW Nat)
      "DROP TABLE t".toList Parameters.absent).2.2.2.2.2
    (by decide) (by decide) (by decide) (by decide)

/-! ## Pool close (_pool.js, ConnectionPool.close) -/

/-- The close-relevant state of the pool manager: whether the driver
pool handle is non-null, and the readiness flag. -/
structure PoolHandleSt where
  pool : Bool
  isReady : Bool
  deriving DecidableEq

/-- Driver operations issued by close(). -/
inductive PoolEv where
  | endCall
  deriving DecidableEq

/-- close() of _pool.js: when the pool handle is non-null, await
pool.end() and clear the readiness flag; the handle itself is never
cleared. -/
def close (s : PoolHandleSt) : PoolHandleSt × List PoolEv :=
  if s.pool then ({ pool := s.pool, isReady := false }, [PoolEv.endCall])
  else (s, [])

/-- C9: the claim that a second close() is a no-op fails — because the
pool handle is never cleared, closing an already-closed pool issues the
driver end() call again rather than performing no driver operation. -/
theorem C9_second_close_not_noop :
    (close (close ⟨true, true⟩).1).2 ≠ ([] : List PoolEv) := by
  decide

/-- C9 (amended): close() is idempotent at the state level — the first
call clears the readiness flag and every subsequent call leaves the
state unchanged, so calling close() repeatedly is safe — but a
subsequent call is not a driver no-op: it re-issues the driver's end()
call, because the pool handle is never nulled. -/
theorem C9_close_state_idempotent (s : PoolHandleSt) (h : s.pool = true) :
    (close s).1.isReady = false
    ∧ (close (close s).1).1 = (close s).1
    ∧ (close (close s).1).2 = [PoolEv.endCall] := by
  simp [close, h]

/-- C9 witness: the concrete live pool state, closed twice. -/
theorem C9_close_state_idempotent_witness :
    (close (⟨true, true⟩ : PoolHandleSt)).1.isReady = false :=
  (C9_close_state_idempotent ⟨true, true⟩ rfl).1

end IG
